import Mathlib

/-!
Verification of `horovod/run/elastic/discovery.py`.

The Python module is embedded shallowly:

* Python strings are `List Char` (`Str`); concrete literals are written with
  `String.toList`.
* Python `set` values are `Finset Str` (Python set equality is extensional
  equality, which is exactly `Finset` equality).
* Python `dict` values are association lists `List (Str × α)` whose lookup
  takes the first matching key; Python dict equality is modelled by the
  extensional test `dictEqB` (same lookups on every key).
* `threading.Event` objects are modelled by version numbers.  In the source
  the only mutations of an event are `set()` (`HostState.set_event`) and the
  replacement performed inside `HostState.get_event`, which happens only when
  the current event `is_set()`; no event is ever cleared.  Hence an event
  that is no longer the current one was set when it was replaced and stays
  set forever.  A `HostState` therefore carries the id of the current event
  (`eventId`) together with its flag (`eventSet`), and a previously issued
  handle `h` is signaled iff `h` is an old id (`h ≠ eventId`) or the current
  flag is set.
* Raising an exception is modelled by `Except`/`Option` results: the script
  discovery's `RuntimeError` and the parser's `ValueError` become the two
  constructors of `ScriptError`; a Python `KeyError` on dict indexing becomes
  `none`.
* `defaultdict(HostState)` reads are modelled by a lookup with default value;
  the implicit creation of a default (unblacklisted, unsignaled) entry on
  read is unobservable through every method of the class, so reads are kept
  pure while the mutating methods (`blacklist`, `get_event`) thread the
  state explicitly.
-/

abbrev Str := List Char

/-- First-match lookup in an association list — Python `d[k]`/`k in d`. -/
def lookupA {α : Type} : List (Str × α) → Str → Option α
  | [], _ => none
  | (k, v) :: rest, key => if k = key then some v else lookupA rest key

/-- Replace the value stored under `k` (keeping its position), inserting at
the end when absent — a `defaultdict` write. -/
def updateAssoc {α : Type} : List (Str × α) → Str → α → List (Str × α)
  | [], k, v => [(k, v)]
  | (k', v') :: rest, k, v =>
    if k' = k then (k, v) :: rest else (k', v') :: updateAssoc rest k v

/-- Python `d[k] = v` for the parser's freshly built dict (position of a
re-inserted key is irrelevant: only lookups are observed). -/
def dictInsert (m : List (Str × Int)) (k : Str) (v : Int) : List (Str × Int) :=
  (k, v) :: m.filter (fun p => p.1 ≠ k)

/-- Python dict equality `d1 == d2`: the two maps agree on every key that
occurs in either of them (hence on every key at all). -/
def dictEqB (m1 m2 : List (Str × Int)) : Bool :=
  m1.all (fun p => lookupA m1 p.1 == lookupA m2 p.1) &&
  m2.all (fun p => lookupA m1 p.1 == lookupA m2 p.1)

/-- Python `s.split(c)` for a one-character separator. -/
def splitOnChar (c : Char) : List Char → List (List Char)
  | [] => [[]]
  | x :: xs =>
    match splitOnChar c xs with
    | [] => [[x]]
    | y :: ys => if x = c then [] :: y :: ys else (x :: y) :: ys

/-- Python `s.strip()`: drop leading and trailing whitespace. -/
def stripChars (s : List Char) : List Char :=
  ((s.dropWhile Char.isWhitespace).reverse.dropWhile Char.isWhitespace).reverse

/-- Python `set(lines)` consumed by iteration: duplicates collapse.  CPython
keeps the slot chosen at first insertion, so the model keeps the first
occurrence of each line. -/
def dedupF {α : Type} [DecidableEq α] : List α → List α
  | [] => []
  | x :: xs => x :: (dedupF xs).filter (fun y => y ≠ x)

/-- Value of a digit string, most significant first. -/
def digitsVal (ds : List Char) : Int :=
  ds.foldl (fun n c => 10 * n + ((c.toNat : Int) - ('0'.toNat : Int))) 0

/-- Python `int(s)`: optional surrounding whitespace, optional sign, then a
nonempty run of decimal digits; anything else raises `ValueError` (`none`). -/
def pyInt? (s : List Char) : Option Int :=
  match stripChars s with
  | '+' :: ds => if ds ≠ [] ∧ ds.all Char.isDigit then some (digitsVal ds) else none
  | '-' :: ds => if ds ≠ [] ∧ ds.all Char.isDigit then some (-(digitsVal ds)) else none
  | ds => if ds ≠ [] ∧ ds.all Char.isDigit then some (digitsVal ds) else none

/-- Per-host mutable record (`HostState` in the source); see the header for
the event model. -/
structure HostState where
  eventId : Nat
  eventSet : Bool
  blacklisted : Bool
deriving DecidableEq, Repr

/-- `HostState.__init__`: fresh unset event, not blacklisted. -/
def HostState.initial : HostState := ⟨0, false, false⟩

/-- `HostState.get_event`: if the current event is set, rotate in a fresh
unset event; return (new state, id of the returned event). -/
def HostState.get_event (s : HostState) : HostState × Nat :=
  if s.eventSet then ({ s with eventId := s.eventId + 1, eventSet := false }, s.eventId + 1)
  else (s, s.eventId)

/-- `HostState.set_event`: set the current event. -/
def HostState.set_event (s : HostState) : HostState :=
  { s with eventSet := true }

/-- `HostState.blacklist`: set the flag, then signal the current event. -/
def HostState.blacklist (s : HostState) : HostState :=
  HostState.set_event { s with blacklisted := true }

/-- `HostState.is_blacklisted`. -/
def HostState.is_blacklisted (s : HostState) : Bool := s.blacklisted

/-- Whether a previously issued handle `h` is signaled in state `s`: the
current handle carries the flag; a rotated-out handle was set when it was
replaced and is never cleared. -/
def HostState.eventSignaled (s : HostState) (h : Nat) : Bool :=
  if h = s.eventId then s.eventSet else true

/-- Calls a client may make against one `HostState`. -/
inductive HOp
  | signal
  | waitHandle
  | black
deriving DecidableEq, Repr

/-- Effect of one call on a `HostState`. -/
def HostState.applyOp (s : HostState) : HOp → HostState
  | .signal => s.set_event
  | .waitHandle => (s.get_event).1
  | .black => s.blacklist

/-- Effect of a call sequence. -/
def HostState.applyOps (s : HostState) (ops : List HOp) : HostState :=
  ops.foldl HostState.applyOp s

/-- Errors raised below `DiscoveredHosts.update_available_hosts`:
`runtimeError` is the `RuntimeError` raised for a failing discovery script,
`valueError` the `ValueError` from tuple unpacking or `int()`. -/
inductive ScriptError
  | runtimeError (script : Str) (exitCode : Int)
  | valueError (payload : Str)
deriving DecidableEq, Repr

/-- The `DiscoveredHosts` aggregate: current snapshot plus the cumulative
`defaultdict(HostState)`. -/
structure DiscoveredHosts where
  available_hosts : Finset Str
  available_slots : List (Str × Int)
  host_state : List (Str × HostState)
deriving DecidableEq

/-- `self._host_state[host]` as a read: lookup with `defaultdict` default. -/
def DiscoveredHosts.getHostState (st : DiscoveredHosts) (h : Str) : HostState :=
  (lookupA st.host_state h).getD HostState.initial

/-- Store back a host's state (creating the entry when absent). -/
def DiscoveredHosts.setHostState (st : DiscoveredHosts) (h : Str) (v : HostState) :
    DiscoveredHosts :=
  { st with host_state := updateAssoc st.host_state h v }

/-- `DiscoveredHosts.update_available_hosts`.  The call to the discovery
source is the argument `res` (its returned snapshot or raised error); the
method propagates an error leaving the fields untouched, otherwise compares
the new snapshot by set and dict equality, swapping both fields on any
difference. -/
def DiscoveredHosts.update_available_hosts (st : DiscoveredHosts)
    (res : Except ScriptError (Finset Str × List (Str × Int))) :
    DiscoveredHosts × Except ScriptError Bool :=
  match res with
  | .error e => (st, .error e)
  | .ok (available_hosts, available_slots) =>
    if st.available_hosts ≠ available_hosts ∨ ¬ dictEqB st.available_slots available_slots then
      ({ st with available_hosts := available_hosts, available_slots := available_slots },
       .ok true)
    else (st, .ok false)

/-- `DiscoveredHosts.get_slots`: dict indexing, `KeyError` as `none`. -/
def DiscoveredHosts.get_slots (st : DiscoveredHosts) (h : Str) : Option Int :=
  lookupA st.available_slots h

/-- `DiscoveredHosts.filter_available_hosts`. -/
def DiscoveredHosts.filter_available_hosts (st : DiscoveredHosts) (hosts : List Str) :
    List Str :=
  hosts.filter (fun h => decide (h ∈ st.available_hosts) &&
    !(st.getHostState h).is_blacklisted)

/-- `DiscoveredHosts.blacklist`: warn iff the host was not already
blacklisted (the returned `Bool`), then blacklist its state. -/
def DiscoveredHosts.blacklist (st : DiscoveredHosts) (h : Str) : DiscoveredHosts × Bool :=
  (st.setHostState h ((st.getHostState h).blacklist), !(st.getHostState h).is_blacklisted)

/-- `DiscoveredHosts.is_blacklisted`. -/
def DiscoveredHosts.is_blacklisted (st : DiscoveredHosts) (h : Str) : Bool :=
  (st.getHostState h).is_blacklisted

/-- The sum in `DiscoveredHosts.count_blacklisted_slots`: iterate the items
of `_host_state`, and for each blacklisted host index `_available_slots`
(raising `KeyError`, i.e. `none`, when the host is absent). -/
def sumBlacklistedSlots (slots : List (Str × Int)) : List (Str × HostState) → Option Int
  | [] => some 0
  | (h, meta) :: rest =>
    if meta.is_blacklisted then
      match lookupA slots h with
      | none => none
      | some v => (sumBlacklistedSlots slots rest).map (fun t => v + t)
    else sumBlacklistedSlots slots rest

/-- `DiscoveredHosts.count_blacklisted_slots`. -/
def DiscoveredHosts.count_blacklisted_slots (st : DiscoveredHosts) : Option Int :=
  sumBlacklistedSlots st.available_slots st.host_state

/-- `DiscoveredHosts.get_host_event`: delegate to the host's
`HostState.get_event`, persisting the possible rotation. -/
def DiscoveredHosts.get_host_event (st : DiscoveredHosts) (h : Str) :
    DiscoveredHosts × Nat :=
  (st.setHostState h ((st.getHostState h).get_event).1, ((st.getHostState h).get_event).2)

/-- Calls that touch the host-state map of a `DiscoveredHosts`. -/
inductive DOp
  | black (h : Str)
  | getEv (h : Str)
deriving DecidableEq

/-- Effect of one call on a `DiscoveredHosts`. -/
def DiscoveredHosts.applyDOp (st : DiscoveredHosts) : DOp → DiscoveredHosts
  | .black h => (st.blacklist h).1
  | .getEv h => (st.get_host_event h).1

/-- Effect of a call sequence. -/
def DiscoveredHosts.applyDOps (st : DiscoveredHosts) (ops : List DOp) : DiscoveredHosts :=
  ops.foldl DiscoveredHosts.applyDOp st

/-- One line of the loop body in
`HostDiscoveryScript.find_available_hosts_and_slots`: a line containing a
colon must split into exactly two parts (`ValueError` otherwise) with an
integer second part; a bare line gets the default slot count. -/
def parseLine (default_slots : Int) (line : Str) : Except ScriptError (Str × Int) :=
  if ':' ∈ line then
    match splitOnChar ':' line with
    | [host, slots] =>
      match pyInt? slots with
      | some n => Except.ok (host, n)
      | none => Except.error (.valueError slots)
    | _ => Except.error (.valueError line)
  else Except.ok (line, default_slots)

/-- Run `parseLine` over the lines in iteration order, aborting at the first
raised error (abandoning any partial result, as the Python loop does). -/
def parseAll (default_slots : Int) : List Str → Except ScriptError (List (Str × Int))
  | [] => Except.ok []
  | l :: rest =>
    match parseLine default_slots l with
    | .error e => Except.error e
    | .ok p =>
      match parseAll default_slots rest with
      | .error e => Except.error e
      | .ok ps => Except.ok (p :: ps)

/-- The loop of `find_available_hosts_and_slots`: deduplicate the lines,
parse each, and accumulate the host set and slot dict. -/
def parseHostsAndSlots (default_slots : Int) (lines : List Str) :
    Except ScriptError (Finset Str × List (Str × Int)) :=
  match parseAll default_slots (dedupF lines) with
  | .error e => Except.error e
  | .ok pairs =>
    Except.ok (pairs.foldl (fun acc p => insert p.1 acc) ∅,
               pairs.foldl (fun acc p => dictInsert acc p.1 p.2) [])

/-- `HostDiscoveryScript.find_available_hosts_and_slots`.  Executing the
script is external: its exit code and captured stdout are the arguments.
A non-zero exit code raises `RuntimeError`; otherwise stdout is stripped,
split on newlines, deduplicated and parsed. -/
def find_available_hosts_and_slots (script : Str) (default_slots : Int)
    (exit_code : Int) (stdout : List Char) :
    Except ScriptError (Finset Str × List (Str × Int)) :=
  if exit_code ≠ 0 then Except.error (.runtimeError script exit_code)
  else parseHostsAndSlots default_slots (splitOnChar '\n' (stripChars stdout))

/-- Host set of a successful discovery result. -/
def hostsOf (r : Except ScriptError (Finset Str × List (Str × Int))) : Finset Str :=
  match r with
  | .ok p => p.1
  | .error _ => ∅

/-- Slot dict of a successful discovery result. -/
def slotsOf (r : Except ScriptError (Finset Str × List (Str × Int))) :
    List (Str × Int) :=
  match r with
  | .ok p => p.2
  | .error _ => []

/-- Discriminates the results whose error is a `ValueError`. -/
def exceptIsValueError (r : Except ScriptError (Finset Str × List (Str × Int))) : Bool :=
  match r with
  | .error (.valueError _) => true
  | _ => false

/-! ### Helper lemmas -/

theorem lookupA_updateAssoc_self {α : Type} (m : List (Str × α)) (k : Str) (v : α) :
    lookupA (updateAssoc m k v) k = some v := by
  induction m with
  | nil => simp [updateAssoc, lookupA]
  | cons p rest ih =>
    by_cases hk : p.1 = k
    · simp [updateAssoc, hk, lookupA]
    · simp [updateAssoc, hk, lookupA, ih]

theorem getHostState_setHostState_self (st : DiscoveredHosts) (h : Str) (v : HostState) :
    (st.setHostState h v).getHostState h = v := by
  simp [DiscoveredHosts.setHostState, DiscoveredHosts.getHostState, lookupA_updateAssoc_self]

theorem eventSignaled_of_eventSet (s : HostState) (v : Nat) (hs : s.eventSet = true) :
    s.eventSignaled v = true := by
  unfold HostState.eventSignaled
  split <;> simp [hs]

theorem get_event_fst_eventSet (s : HostState) : ((s.get_event).1).eventSet = false := by
  unfold HostState.get_event
  by_cases hs : s.eventSet <;> simp [hs]

theorem get_event_fst_eventId (s : HostState) : ((s.get_event).1).eventId = (s.get_event).2 := by
  unfold HostState.get_event
  by_cases hs : s.eventSet <;> simp [hs]

theorem applyOps_waitHandle_fixed (s : HostState) (hset : s.eventSet = false)
    (ops : List HOp) (hall : ∀ o ∈ ops, o = HOp.waitHandle) :
    HostState.applyOps s ops = s := by
  induction ops with
  | nil => rfl
  | cons o rest ih =>
    have ho : o = HOp.waitHandle := hall o (List.mem_cons_self o rest)
    have hstep : HostState.applyOp s o = s := by
      subst ho
      simp [HostState.applyOp, HostState.get_event, hset]
    show HostState.applyOps (HostState.applyOp s o) rest = s
    rw [hstep]
    exact ih (fun o' ho' => hall o' (List.mem_cons_of_mem o ho'))

/-! ### Claim theorems -/

/-- Claim C2: for every `HostState` (reached through any sequence of prior
`signal`/`wait_handle`/`blacklist` calls), the handle returned by
`get_event` is unsignaled at the moment it is returned, and stays
unsignaled under further `wait_handle` calls until the next signal. -/
theorem wait_handle_unsignaled (s0 : HostState) (ops : List HOp) :
    (((HostState.applyOps s0 ops).get_event).1.eventSignaled
        ((HostState.applyOps s0 ops).get_event).2 = false) ∧
    (∀ ops2 : List HOp, (∀ o ∈ ops2, o = HOp.waitHandle) →
      (HostState.applyOps ((HostState.applyOps s0 ops).get_event).1 ops2).eventSignaled
        ((HostState.applyOps s0 ops).get_event).2 = false) := by
  set s := HostState.applyOps s0 ops with hs
  constructor
  · unfold HostState.get_event HostState.eventSignaled
    by_cases he : s.eventSet <;> simp [he]
  · intro ops2 hall
    rw [applyOps_waitHandle_fixed ((s.get_event).1) (get_event_fst_eventSet s) ops2 hall]
    unfold HostState.eventSignaled
    rw [get_event_fst_eventId, if_pos rfl]
    exact get_event_fst_eventSet s

/-- Witness for C2 at a concrete state: a signal happened, `get_event`
rotates, the returned handle is unsignaled and stays so across another
`wait_handle` call. -/
theorem wait_handle_unsignaled_witness :
    (((HostState.applyOps HostState.initial [HOp.signal]).get_event).1.eventSignaled
        ((HostState.applyOps HostState.initial [HOp.signal]).get_event).2 = false) ∧
    ((HostState.applyOps ((HostState.applyOps HostState.initial [HOp.signal]).get_event).1
        [HOp.waitHandle]).eventSignaled
        ((HostState.applyOps HostState.initial [HOp.signal]).get_event).2 = false) :=
  ⟨(wait_handle_unsignaled HostState.initial [HOp.signal]).1,
   (wait_handle_unsignaled HostState.initial [HOp.signal]).2 [HOp.waitHandle] (by decide)⟩

/-- Claim C3: a handle obtained from `get_host_event h` before a
`blacklist h` call (with any interleaved blacklist/get-event calls in
between) is signaled once the blacklist call completes. -/
theorem host_event_before_blacklist_signaled (st : DiscoveredHosts) (h : Str)
    (ops : List DOp) :
    ((((st.get_host_event h).1.applyDOps ops).blacklist h).1.getHostState h).eventSignaled
      (st.get_host_event h).2 = true := by
  set st2 := (st.get_host_event h).1.applyDOps ops with hst2
  have hb : ((st2.blacklist h).1).getHostState h = (st2.getHostState h).blacklist := by
    unfold DiscoveredHosts.blacklist
    exact getHostState_setHostState_self st2 h _
  rw [hb]
  exact eventSignaled_of_eventSet _ _ rfl

/-- Claim C4: when the discovery source raises, `update_available_hosts`
propagates the error, leaves the stored snapshot untouched, and never
reports the failure as a boolean result. -/
theorem refresh_error_atomic (st : DiscoveredHosts) (e : ScriptError) :
    st.update_available_hosts (Except.error e) = (st, Except.error e) ∧
    ∀ b : Bool, (st.update_available_hosts (Except.error e)).2 ≠ Except.ok b := by
  refine ⟨rfl, ?_⟩
  intro b
  simp [DiscoveredHosts.update_available_hosts]

/-- Claim C6: blacklisting a host twice reports it blacklisted after each
call, and the warning (the returned `Bool`) fires at most once: never on
the second call. -/
theorem blacklist_idempotent_single_warning (st : DiscoveredHosts) (h : Str) :
    ((st.blacklist h).1.is_blacklisted h = true) ∧
    (((st.blacklist h).1.blacklist h).1.is_blacklisted h = true) ∧
    (((st.blacklist h).1.blacklist h).2 = false) ∧
    ((if (st.blacklist h).2 = true then 1 else 0) +
      (if ((st.blacklist h).1.blacklist h).2 = true then 1 else 0) ≤ 1) := by
  have h1 : (st.blacklist h).1.getHostState h = (st.getHostState h).blacklist :=
    getHostState_setHostState_self st h _
  have hbl : ((st.getHostState h).blacklist).is_blacklisted = true := rfl
  have h2 : ((st.blacklist h).1.blacklist h).1.getHostState h =
      ((st.blacklist h).1.getHostState h).blacklist :=
    getHostState_setHostState_self (st.blacklist h).1 h _
  have hw2 : ((st.blacklist h).1.blacklist h).2 = false := by
    show (!((st.blacklist h).1.getHostState h).is_blacklisted) = false
    rw [h1, hbl]
    rfl
  refine ⟨?_, ?_, hw2, ?_⟩
  · show ((st.blacklist h).1.getHostState h).is_blacklisted = true
    rw [h1]; exact hbl
  · show (((st.blacklist h).1.blacklist h).1.getHostState h).is_blacklisted = true
    rw [h2]; rfl
  · rw [hw2]
    by_cases hw1 : (st.blacklist h).2 = true <;> simp [hw1]

theorem lookupA_key_mem {α : Type} {m : List (Str × α)} {k : Str} {v : α}
    (hl : lookupA m k = some v) : ∃ p ∈ m, p.1 = k := by
  induction m with
  | nil => simp [lookupA] at hl
  | cons q rest ih =>
    rcases q with ⟨k', v'⟩
    by_cases hk : k' = k
    · exact ⟨(k', v'), List.mem_cons_self _ _, hk⟩
    · rw [show lookupA ((k', v') :: rest) k = lookupA rest k by simp [lookupA, hk]] at hl
      obtain ⟨p, hp, hpe⟩ := ih hl
      exact ⟨p, List.mem_cons_of_mem _ hp, hpe⟩

theorem dictEqB_eq_true_iff (m1 m2 : List (Str × Int)) :
    dictEqB m1 m2 = true ↔ ∀ k, lookupA m1 k = lookupA m2 k := by
  constructor
  · intro hb k
    rw [dictEqB, Bool.and_eq_true, List.all_eq_true, List.all_eq_true] at hb
    rcases h1 : lookupA m1 k with _ | v
    · rcases h2 : lookupA m2 k with _ | w
      · rfl
      · obtain ⟨p, hp, hpk⟩ := lookupA_key_mem h2
        have := hb.2 p hp
        rw [hpk, beq_iff_eq, h1, h2] at this
        exact this
    · obtain ⟨p, hp, hpk⟩ := lookupA_key_mem h1
      have := hb.1 p hp
      rw [hpk, beq_iff_eq, h1] at this
      exact this
  · intro hk
    rw [dictEqB, Bool.and_eq_true, List.all_eq_true, List.all_eq_true]
    exact ⟨fun p _ => by rw [beq_iff_eq, hk p.1], fun p _ => by rw [beq_iff_eq, hk p.1]⟩

theorem update_available_hosts_ok (st : DiscoveredHosts) (hosts : Finset Str)
    (slots : List (Str × Int)) :
    st.update_available_hosts (Except.ok (hosts, slots)) =
      if st.available_hosts ≠ hosts ∨ ¬ dictEqB st.available_slots slots then
        ({ st with available_hosts := hosts, available_slots := slots }, Except.ok true)
      else (st, Except.ok false) := rfl

/-- Claim C5: `update_available_hosts` on a successful discovery returns
`false` and leaves the stored snapshot unchanged exactly when the new
snapshot is set-equal and mapping-equal to the stored one; otherwise it
installs the new snapshot and returns `true`. -/
theorem refresh_diff_correct (st : DiscoveredHosts) (hosts : Finset Str)
    (slots : List (Str × Int)) :
    (st.update_available_hosts (Except.ok (hosts, slots)) = (st, Except.ok false) ↔
      (st.available_hosts = hosts ∧
        ∀ k, lookupA st.available_slots k = lookupA slots k)) ∧
    ((¬ (st.available_hosts = hosts ∧
        ∀ k, lookupA st.available_slots k = lookupA slots k)) →
      st.update_available_hosts (Except.ok (hosts, slots)) =
        ({ st with available_hosts := hosts, available_slots := slots },
         Except.ok true)) := by
  by_cases hc : st.available_hosts = hosts ∧
      ∀ k, lookupA st.available_slots k = lookupA slots k
  · have hcond : ¬ (st.available_hosts ≠ hosts ∨
        ¬ dictEqB st.available_slots slots) := by
      push_neg
      exact ⟨hc.1, (dictEqB_eq_true_iff _ _).mpr hc.2⟩
    have hres : st.update_available_hosts (Except.ok (hosts, slots)) =
        (st, Except.ok false) := by
      rw [update_available_hosts_ok, if_neg hcond]
    exact ⟨by simp [hres, hc], fun hnc => absurd hc hnc⟩
  · have hcond : st.available_hosts ≠ hosts ∨ ¬ dictEqB st.available_slots slots := by
      by_contra hn
      push_neg at hn
      exact hc ⟨hn.1, (dictEqB_eq_true_iff _ _).mp hn.2⟩
    have hres : st.update_available_hosts (Except.ok (hosts, slots)) =
        ({ st with available_hosts := hosts, available_slots := slots },
         Except.ok true) := by
      rw [update_available_hosts_ok, if_pos hcond]
    refine ⟨?_, fun _ => hres⟩
    constructor
    · intro habs
      rw [hres] at habs
      have : (Except.ok true : Except ScriptError Bool) = Except.ok false :=
        congrArg Prod.snd habs
      simp at this
    · intro habs
      exact absurd habs hc

/-- Witness for C5 at a concrete state: a genuinely different snapshot is
installed and reported as `true`. -/
theorem refresh_diff_correct_witness :
    DiscoveredHosts.update_available_hosts ⟨∅, [], []⟩
        (Except.ok ({"a".toList}, [("a".toList, 4)])) =
      (⟨{"a".toList}, [("a".toList, 4)], []⟩, Except.ok true) :=
  (refresh_diff_correct ⟨∅, [], []⟩ {"a".toList} [("a".toList, 4)]).2
    (fun hc => absurd hc.1 (by decide))

/-- Claim C7: `filter_available_hosts` returns exactly the candidates that
are in the current snapshot's host set and not blacklisted, as a sublist of
the input (relative order preserved), with each candidate's multiplicity
preserved when it passes the filter and dropped to zero otherwise. -/
theorem filter_available_hosts_correct (st : DiscoveredHosts) (hosts : List Str) :
    (st.filter_available_hosts hosts).Sublist hosts ∧
    ∀ h : Str, (st.filter_available_hosts hosts).count h =
      if h ∈ st.available_hosts ∧ st.is_blacklisted h = false then hosts.count h
      else 0 := by
  refine ⟨List.filter_sublist hosts, fun h => ?_⟩
  by_cases hc : h ∈ st.available_hosts ∧ st.is_blacklisted h = false
  · rw [if_pos hc]
    refine List.count_filter ?_
    rw [Bool.and_eq_true, Bool.not_eq_true']
    exact ⟨decide_eq_true hc.1, hc.2⟩
  · rw [if_neg hc, List.count_eq_zero]
    intro hmem
    have hmem' : h ∈ hosts.filter (fun h' => decide (h' ∈ st.available_hosts) &&
        !(st.getHostState h').is_blacklisted) := hmem
    rw [List.mem_filter, Bool.and_eq_true, Bool.not_eq_true'] at hmem'
    exact hc ⟨of_decide_eq_true hmem'.2.1, hmem'.2.2⟩

theorem sumBlacklistedSlots_all_present (slots : List (Str × Int))
    (l : List (Str × HostState))
    (hall : ∀ p ∈ l, p.2.is_blacklisted = true → (lookupA slots p.1).isSome) :
    sumBlacklistedSlots slots l =
      some (((l.filter (fun p => p.2.is_blacklisted)).map
        (fun p => (lookupA slots p.1).getD 0)).sum) := by
  induction l with
  | nil => rfl
  | cons q rest ih =>
    rcases q with ⟨h, meta⟩
    have ihr := ih (fun p hp hb => hall p (List.mem_cons_of_mem _ hp) hb)
    by_cases hbl : meta.is_blacklisted = true
    · have hsome : (lookupA slots h).isSome :=
        hall (h, meta) (List.mem_cons_self _ _) hbl
      rcases hlk : lookupA slots h with _ | v
      · rw [hlk] at hsome
        simp at hsome
      · rw [show sumBlacklistedSlots slots ((h, meta) :: rest) =
            (sumBlacklistedSlots slots rest).map (fun t => v + t) by
          simp [sumBlacklistedSlots, hbl, hlk]]
        rw [ihr]
        simp [hbl, hlk]
    · rw [show sumBlacklistedSlots slots ((h, meta) :: rest) =
          sumBlacklistedSlots slots rest by simp [sumBlacklistedSlots, hbl]]
      rw [ihr]
      simp [hbl]

theorem sumBlacklistedSlots_missing (slots : List (Str × Int))
    (l : List (Str × HostState))
    (hone : ∃ p ∈ l, p.2.is_blacklisted = true ∧ lookupA slots p.1 = none) :
    sumBlacklistedSlots slots l = none := by
  induction l with
  | nil =>
    obtain ⟨p, hp, _⟩ := hone
    exact absurd hp (List.not_mem_nil p)
  | cons q rest ih =>
    rcases q with ⟨h, meta⟩
    obtain ⟨p, hp, hpb, hpn⟩ := hone
    rcases List.mem_cons.mp hp with hph | hpr
    · subst hph
      simp [sumBlacklistedSlots, hpb, hpn]
    · have ihr := ih ⟨p, hpr, hpb, hpn⟩
      by_cases hbl : meta.is_blacklisted = true
      · rcases hlk : lookupA slots h with _ | v
        · simp [sumBlacklistedSlots, hbl, hlk]
        · simp [sumBlacklistedSlots, hbl, hlk, ihr]
      · simp [sumBlacklistedSlots, hbl, ihr]

/-- Claim C1 fails on the code; this is the amended statement.
`count_blacklisted_slots` succeeds with the sum of the snapshot slot values
of the blacklisted entries when every blacklisted host is still present in
the snapshot mapping, and raises `KeyError` (returns `none`) as soon as a
blacklisted host is absent from it — the absent entry is not treated as
contributing 0 slots. -/
theorem count_blacklisted_slots_sum_or_keyerror (st : DiscoveredHosts) :
    ((∀ p ∈ st.host_state, p.2.is_blacklisted = true → (st.get_slots p.1).isSome) →
      st.count_blacklisted_slots =
        some (((st.host_state.filter (fun p => p.2.is_blacklisted)).map
          (fun p => (st.get_slots p.1).getD 0)).sum)) ∧
    ((∃ p ∈ st.host_state, p.2.is_blacklisted = true ∧ st.get_slots p.1 = none) →
      st.count_blacklisted_slots = none) :=
  ⟨fun hall => sumBlacklistedSlots_all_present st.available_slots st.host_state hall,
   fun hone => sumBlacklistedSlots_missing st.available_slots st.host_state hone⟩

/-- A state reached by blacklisting host `a` while it was in the snapshot
and then refreshing with a snapshot that no longer contains it: host `a`
is blacklisted but absent from the slot mapping. -/
def removedBlacklistedHost : DiscoveredHosts :=
  (((⟨{"a".toList}, [("a".toList, 4)], []⟩ : DiscoveredHosts).blacklist
    "a".toList).1.update_available_hosts (Except.ok (∅, []))).1

/-- Counterexample to claim C1 as stated: in `removedBlacklistedHost` the
host `"a"` is blacklisted but absent from the snapshot mapping, and
`count_blacklisted_slots` does not return any sum (in particular not the
sum 0 the claim's reading prescribes): it raises `KeyError` (`none`). -/
theorem count_blacklisted_slots_keyerror_cex :
    ("a".toList, (DiscoveredHosts.getHostState removedBlacklistedHost "a".toList)) ∈
        removedBlacklistedHost.host_state ∧
    (DiscoveredHosts.getHostState removedBlacklistedHost "a".toList).is_blacklisted = true ∧
    DiscoveredHosts.get_slots removedBlacklistedHost "a".toList = none ∧
    DiscoveredHosts.count_blacklisted_slots removedBlacklistedHost = none ∧
    DiscoveredHosts.count_blacklisted_slots removedBlacklistedHost ≠ some 0 := by
  decide

/-- Witness for the amended C1: with the blacklisted host present the sum is
returned, and on `removedBlacklistedHost` the call fails with `KeyError`. -/
theorem count_blacklisted_slots_sum_or_keyerror_witness :
    DiscoveredHosts.count_blacklisted_slots
        ⟨{"a".toList}, [("a".toList, 2)], [("a".toList, ⟨0, true, true⟩)]⟩ = some 2 ∧
    DiscoveredHosts.count_blacklisted_slots removedBlacklistedHost = none := by
  constructor
  · have h := (count_blacklisted_slots_sum_or_keyerror
      ⟨{"a".toList}, [("a".toList, 2)], [("a".toList, ⟨0, true, true⟩)]⟩).1 (by decide)
    rw [h]
    decide
  · exact (count_blacklisted_slots_sum_or_keyerror removedBlacklistedHost).2 (by decide)

theorem dedupF_append_single {α : Type} [DecidableEq α] (L : List α) (y : α) :
    dedupF (L ++ [y]) = dedupF L ++ if y ∈ L then [] else [y] := by
  induction L with
  | nil => simp [dedupF]
  | cons x L' ih =>
    show x :: (dedupF (L' ++ [y])).filter (fun z => z ≠ x) =
      (x :: (dedupF L').filter (fun z => z ≠ x)) ++ if y ∈ x :: L' then [] else [y]
    rw [ih, List.filter_append]
    by_cases hyL : y ∈ L'
    · simp [hyL]
    · by_cases hyx : y = x
      · subst hyx
        simp [hyL]
      · simp [hyL, hyx]

theorem mem_dedupF {α : Type} [DecidableEq α] (a : α) (L : List α) :
    a ∈ dedupF L ↔ a ∈ L := by
  induction L with
  | nil => simp [dedupF]
  | cons x xs ih =>
    show a ∈ x :: (dedupF xs).filter (fun y => y ≠ x) ↔ a ∈ x :: xs
    by_cases hax : a = x
    · subst hax
      simp
    · simp only [List.mem_cons, List.mem_filter]
      constructor
      · rintro (h | ⟨h, _⟩)
        · exact Or.inl h
        · exact Or.inr (ih.mp h)
      · rintro (h | h)
        · exact Or.inl h
        · exact Or.inr ⟨ih.mpr h, by simpa using hax⟩

/-- Counterexample to claim C8 as stated: the accepted output
`"h1\n\nh2"` contains a blank (interior) line, yet the empty-string host
is present in the returned host set and mapped to the default slot count —
a blank line does contribute a host. -/
theorem blank_line_contributes_host_cex :
    "".toList ∈ hostsOf (find_available_hosts_and_slots "s".toList 2 0
      ("h1\n\nh2".toList)) ∧
    lookupA (slotsOf (find_available_hosts_and_slots "s".toList 2 0
      ("h1\n\nh2".toList))) "".toList = some 2 := by
  decide

/-- Claim C8 fails on the code for blank lines; this is the amended
statement.  Duplicate lines are silently deduplicated: appending a line
that already occurs leaves the parse result unchanged, and the example
output `"h1\nh2:3\nh1"` with default slots 2 yields exactly the hosts
`h1`, `h2` with slots `h1 ↦ 2`, `h2 ↦ 3`.  (Blank lines, however, do not
collapse away: an interior blank line contributes the empty-string host,
see the counterexample.) -/
theorem duplicate_lines_collapse (d : Int) (L : List Str) (l : Str) :
    (l ∈ L → parseHostsAndSlots d (L ++ [l]) = parseHostsAndSlots d L) ∧
    (hostsOf (find_available_hosts_and_slots "s".toList 2 0
        ("h1\nh2:3\nh1".toList)) = {"h1".toList, "h2".toList} ∧
      lookupA (slotsOf (find_available_hosts_and_slots "s".toList 2 0
        ("h1\nh2:3\nh1".toList))) "h1".toList = some 2 ∧
      lookupA (slotsOf (find_available_hosts_and_slots "s".toList 2 0
        ("h1\nh2:3\nh1".toList))) "h2".toList = some 3) := by
  constructor
  · intro hl
    unfold parseHostsAndSlots
    rw [dedupF_append_single, if_pos hl, List.append_nil]
  · exact ⟨by decide, by decide, by decide⟩

/-- Witness for the amended C8: a concrete duplicated line collapses. -/
theorem duplicate_lines_collapse_witness :
    parseHostsAndSlots 2 (["h1".toList, "h2".toList] ++ ["h1".toList]) =
      parseHostsAndSlots 2 ["h1".toList, "h2".toList] :=
  (duplicate_lines_collapse 2 ["h1".toList, "h2".toList] "h1".toList).1 (by decide)

/-- Claim C9: a script that exits 0 with empty (or all-whitespace) stdout
yields the snapshot whose only host is the empty string, mapped to the
default slot count — not an empty snapshot. -/
theorem empty_output_gives_empty_string_host (script : Str) (d : Int)
    (stdout : List Char) (hws : stripChars stdout = []) :
    find_available_hosts_and_slots script d 0 stdout =
      Except.ok ({([] : Str)}, [(([] : Str), d)]) := by
  unfold find_available_hosts_and_slots
  rw [hws, if_neg (by simp)]
  show parseHostsAndSlots d [[]] = Except.ok ({([] : Str)}, [(([] : Str), d)])
  unfold parseHostsAndSlots
  show (match parseAll d [[]] with
    | .error e => Except.error e
    | .ok pairs => Except.ok (pairs.foldl (fun acc p => insert p.1 acc) ∅,
        pairs.foldl (fun acc p => dictInsert acc p.1 p.2) [])) =
    Except.ok ({([] : Str)}, [(([] : Str), d)])
  rw [show parseAll d [[]] = Except.ok [(([] : Str), d)] from rfl]
  show Except.ok (insert ([] : Str) ∅, dictInsert [] [] d) =
    Except.ok ({([] : Str)}, [(([] : Str), d)])
  rw [insert_emptyc_eq]
  rfl

/-- Witness for C9 at a concrete whitespace-only stdout. -/
theorem empty_output_gives_empty_string_host_witness :
    find_available_hosts_and_slots "s".toList 5 0 (" \n\t ".toList) =
      Except.ok ({([] : Str)}, [(([] : Str), 5)]) :=
  empty_output_gives_empty_string_host "s".toList 5 (" \n\t ".toList) (by decide)

theorem splitOnChar_ne_nil (c : Char) (l : List Char) : splitOnChar c l ≠ [] := by
  cases l with
  | nil => simp [splitOnChar]
  | cons x xs =>
    show (match splitOnChar c xs with
      | [] => [[x]]
      | y :: ys => if x = c then [] :: y :: ys else (x :: y) :: ys) ≠ []
    rcases splitOnChar c xs with _ | ⟨y, ys⟩
    · simp
    · by_cases hx : x = c <;> simp [hx]

theorem splitOnChar_length (c : Char) (l : List Char) :
    (splitOnChar c l).length = l.count c + 1 := by
  induction l with
  | nil => simp [splitOnChar]
  | cons x xs ih =>
    obtain ⟨y, ys, hys⟩ := List.exists_cons_of_ne_nil (splitOnChar_ne_nil c xs)
    have hstep : splitOnChar c (x :: xs) =
        if x = c then [] :: y :: ys else (x :: y) :: ys := by
      show (match splitOnChar c xs with
        | [] => [[x]]
        | y :: ys => if x = c then [] :: y :: ys else (x :: y) :: ys) =
        if x = c then [] :: y :: ys else (x :: y) :: ys
      rw [hys]
    rw [hys] at ih
    rw [hstep, List.count_cons]
    by_cases hx : x = c
    · rw [if_pos hx, if_pos (beq_iff_eq.mpr hx)]
      simp only [List.length_cons] at ih ⊢
      omega
    · rw [if_neg hx, if_neg (by simpa using hx)]
      simp only [List.length_cons] at ih ⊢
      omega

theorem parseLine_multi_colon (d : Int) (l : Str) (hcc : 2 ≤ l.count ':') :
    parseLine d l = Except.error (ScriptError.valueError l) := by
  have hmem : ':' ∈ l := List.count_pos_iff.mp (by omega)
  have hlen : 3 ≤ (splitOnChar ':' l).length := by
    rw [splitOnChar_length]
    omega
  unfold parseLine
  rw [if_pos hmem]
  rcases hs : splitOnChar ':' l with _ | ⟨a, _ | ⟨b, _ | ⟨c, rest⟩⟩⟩ <;>
    rw [hs] at hlen <;> simp at hlen ⊢

theorem parseLine_error_is_valueError (d : Int) (l : Str) (e : ScriptError)
    (h : parseLine d l = Except.error e) : ∃ m, e = ScriptError.valueError m := by
  unfold parseLine at h
  by_cases hc : ':' ∈ l
  · rw [if_pos hc] at h
    rcases hs : splitOnChar ':' l with _ | ⟨a, _ | ⟨b, _ | ⟨c', rest⟩⟩⟩ <;> rw [hs] at h
    · exact ⟨l, (Except.error.inj h).symm⟩
    · exact ⟨l, (Except.error.inj h).symm⟩
    · have h' : (match pyInt? b with
        | some n => Except.ok (a, n)
        | none => Except.error (ScriptError.valueError b)) = Except.error e := h
      rcases hp : pyInt? b with _ | n <;> rw [hp] at h'
      · exact ⟨b, (Except.error.inj h').symm⟩
      · exact absurd h' (by simp)
    · exact ⟨l, (Except.error.inj h).symm⟩
  · rw [if_neg hc] at h
    exact absurd h (by simp)

theorem parseAll_error_of_mem (d : Int) (L : List Str) (l : Str) (hl : l ∈ L)
    (e0 : ScriptError) (he : parseLine d l = Except.error e0) :
    ∃ l' e, l' ∈ L ∧ parseAll d L = Except.error e ∧ parseLine d l' = Except.error e := by
  induction L with
  | nil => exact absurd hl (List.not_mem_nil l)
  | cons x xs ih =>
    rcases hx : parseLine d x with ex | p
    · exact ⟨x, ex, List.mem_cons_self _ _, by simp [parseAll, hx], hx⟩
    · have hlx : l ∈ xs := by
        rcases List.mem_cons.mp hl with hh | ht
        · subst hh
          rw [he] at hx
          exact absurd hx (by simp)
        · exact ht
      obtain ⟨l', e, hl', hpa, hpe⟩ := ih hlx
      exact ⟨l', e, List.mem_cons_of_mem _ hl', by simp [parseAll, hx, hpa], hpe⟩

/-- Claim C10: whenever the (successfully exiting) script's output contains
a line with more than one colon, `find_available_hosts_and_slots` raises a
`ValueError` (from tuple unpacking), not the discovery `RuntimeError`, and
returns no snapshot. -/
theorem multi_colon_line_value_error (script : Str) (d : Int) (stdout : List Char)
    (l : Str) (hmem : l ∈ splitOnChar '\n' (stripChars stdout))
    (hcc : 2 ≤ l.count ':') :
    exceptIsValueError (find_available_hosts_and_slots script d 0 stdout) = true := by
  unfold find_available_hosts_and_slots
  rw [if_neg (by simp)]
  have hmd : l ∈ dedupF (splitOnChar '\n' (stripChars stdout)) :=
    (mem_dedupF l _).mpr hmem
  obtain ⟨l', e, _, hpa, hpe⟩ := parseAll_error_of_mem d _ l hmd
    (ScriptError.valueError l) (parseLine_multi_colon d l hcc)
  obtain ⟨m, hm⟩ := parseLine_error_is_valueError d l' e hpe
  unfold parseHostsAndSlots
  rw [hpa, hm]
  rfl

/-- Witness for C10 at the concrete output `"host:extra:5"`. -/
theorem multi_colon_line_value_error_witness :
    exceptIsValueError (find_available_hosts_and_slots "s".toList 2 0
      ("host:extra:5".toList)) = true :=
  multi_colon_line_value_error "s".toList 2 ("host:extra:5".toList)
    "host:extra:5".toList (by decide) (by decide)
